import Mathlib

/-!
Shallow embedding of the oxine server's protocol codec
(`src/lib/src/networking.rs`), session registry (`src/lib/src/server.rs`)
and configuration deserializer (`src/src/structs.rs`), with theorems
checking the natural-language specification against it.

Bytes are `Nat` (values `< 256` on well-formed streams); a stream is a
`List Nat`.  Text is a list of Unicode code points (`List Nat`).
-/

namespace Oxine

/-- The two `std::io` error kinds the codec produces: `InvalidData` for an
unknown discriminant or unrepresentable text, `UnexpectedEof` for a short
read (`read_exact` on a truncated stream). -/
inductive Err where
  | invalidData
  | unexpectedEof
  deriving DecidableEq, Repr

/-- Reader monad over a byte stream: a computation returns a result or an
error, together with the stream that remains.  On an error the returned
stream records exactly how far the decoder consumed. -/
def ReadM (α : Type) : Type := List Nat → Except Err α × List Nat

instance : Monad ReadM where
  pure a := fun s => (Except.ok a, s)
  bind m f := fun s =>
    match m s with
    | (Except.ok a, s') => f a s'
    | (Except.error e, s') => (Except.error e, s')

/-- `read_exact` into a 1-byte buffer: take one byte or fail with
`UnexpectedEof`. -/
def readByte : ReadM Nat := fun s =>
  match s with
  | [] => (Except.error Err.unexpectedEof, [])
  | b :: rest => (Except.ok b, rest)

/-- `read_exact` into an `n`-byte buffer: take `n` bytes or fail with
`UnexpectedEof`. -/
def readExact : Nat → ReadM (List Nat)
  | 0 => pure []
  | n + 1 => fun s =>
    match s with
    | [] => (Except.error Err.unexpectedEof, [])
    | b :: rest =>
      match readExact n rest with
      | (Except.ok bs, s') => (Except.ok (b :: bs), s')
      | (Except.error e, s') => (Except.error e, s')

/-- `<u8 as IncomingPacketType>::load`. -/
def loadU8 : ReadM Nat := readByte

/-- `<u16 as IncomingPacketType>::load`: two bytes, big-endian. -/
def loadU16 : ReadM Nat := do
  let hi ← readByte
  let lo ← readByte
  pure (hi * 256 + lo)

/-- Reinterpret a byte as a signed 8-bit integer (`buf[0] as i8`). -/
def toI8 (b : Nat) : Int :=
  if b < 128 then (b : Int) else (b : Int) - 256

/-- `<i8 as IncomingPacketType>::load`. -/
def loadI8 : ReadM Int := do
  let b ← readByte
  pure (toI8 b)

/-- Modelled from the spec: the fixed-point types `x8`/`x16` of the
`packets` module (absent from the source tree) are signed integers of
fixed width stored as their raw two's-complement bit pattern; `from_bits`
and `to_bits` are the identity on the raw integer.  `x8` carries the raw
8-bit value. -/
structure x8 where
  raw : Int
  deriving DecidableEq, Repr

/-- Modelled from the spec: `x8::from_bits`. -/
def x8.from_bits (i : Int) : x8 := ⟨i⟩

/-- Modelled from the spec: `x8::to_bits`. -/
def x8.to_bits (v : x8) : Int := v.raw

/-- Modelled from the spec: `x16` carries the raw 16-bit value. -/
structure x16 where
  raw : Int
  deriving DecidableEq, Repr

/-- Modelled from the spec: `x16::from_be_bytes`. -/
def x16.from_be_bytes (hi lo : Nat) : x16 :=
  ⟨if hi * 256 + lo < 32768 then ((hi * 256 + lo : Nat) : Int)
   else ((hi * 256 + lo : Nat) : Int) - 65536⟩

/-- `<x8 as IncomingPacketType>::load`: one byte, `from_bits(b as i8)`. -/
def loadX8 : ReadM x8 := do
  let b ← readByte
  pure (x8.from_bits (toI8 b))

/-- `<x16 as IncomingPacketType>::load`: two bytes, `from_be_bytes`. -/
def loadX16 : ReadM x16 := do
  let hi ← readByte
  let lo ← readByte
  pure (x16.from_be_bytes hi lo)

/-- `mint::Vector3`, fields in axis order. -/
structure Vector3 (α : Type) where
  x : α
  y : α
  z : α
  deriving DecidableEq, Repr

/-- `<Vector3<T> as IncomingPacketType>::load`: components in `x, y, z`
order. -/
def loadVector3 {α : Type} (loadT : ReadM α) : ReadM (Vector3 α) := do
  let x ← loadT
  let y ← loadT
  let z ← loadT
  pure ⟨x, y, z⟩

/-- Modelled from the spec: `Location` of the `packets` module — a
16-bit scaled-integer position vector plus yaw and pitch bytes. -/
structure Location where
  position : Vector3 x16
  yaw : Nat
  pitch : Nat
  deriving DecidableEq, Repr

/-- `<Location as IncomingPacketType>::load`: position, yaw, pitch. -/
def loadLocation : ReadM Location := do
  let position ← loadVector3 loadX16
  let yaw ← readByte
  let pitch ← readByte
  pure ⟨position, yaw, pitch⟩

/-- Modelled from the spec: the decode table of the
`codepage_437::CP437_WINGDINGS` dialect (an external crate, not in the
source tree) — the legacy single-byte code page: byte `0x00` is NUL,
bytes `0x01`–`0x1F` and `0x7F` are the extended glyphs, `0x20`–`0x7E`
coincide with ASCII, and `0x80`–`0xFF` are the standard CP437 upper
half (ending in `0xFF` = U+00A0 no-break space).  Entry `b` is the
Unicode code point byte `b` decodes to. -/
def cp437Table : List Nat :=
  [0x0000, 0x263A, 0x263B, 0x2665, 0x2666, 0x2663, 0x2660, 0x2022,
   0x25D8, 0x25CB, 0x25D9, 0x2642, 0x2640, 0x266A, 0x266B, 0x263C,
   0x25BA, 0x25C4, 0x2195, 0x203C, 0x00B6, 0x00A7, 0x25AC, 0x21A8,
   0x2191, 0x2193, 0x2192, 0x2190, 0x221F, 0x2194, 0x25B2, 0x25BC,
   0x0020, 0x0021, 0x0022, 0x0023, 0x0024, 0x0025, 0x0026, 0x0027,
   0x0028, 0x0029, 0x002A, 0x002B, 0x002C, 0x002D, 0x002E, 0x002F,
   0x0030, 0x0031, 0x0032, 0x0033, 0x0034, 0x0035, 0x0036, 0x0037,
   0x0038, 0x0039, 0x003A, 0x003B, 0x003C, 0x003D, 0x003E, 0x003F,
   0x0040, 0x0041, 0x0042, 0x0043, 0x0044, 0x0045, 0x0046, 0x0047,
   0x0048, 0x0049, 0x004A, 0x004B, 0x004C, 0x004D, 0x004E, 0x004F,
   0x0050, 0x0051, 0x0052, 0x0053, 0x0054, 0x0055, 0x0056, 0x0057,
   0x0058, 0x0059, 0x005A, 0x005B, 0x005C, 0x005D, 0x005E, 0x005F,
   0x0060, 0x0061, 0x0062, 0x0063, 0x0064, 0x0065, 0x0066, 0x0067,
   0x0068, 0x0069, 0x006A, 0x006B, 0x006C, 0x006D, 0x006E, 0x006F,
   0x0070, 0x0071, 0x0072, 0x0073, 0x0074, 0x0075, 0x0076, 0x0077,
   0x0078, 0x0079, 0x007A, 0x007B, 0x007C, 0x007D, 0x007E, 0x2302,
   0x00C7, 0x00FC, 0x00E9, 0x00E2, 0x00E4, 0x00E0, 0x00E5, 0x00E7,
   0x00EA, 0x00EB, 0x00E8, 0x00EF, 0x00EE, 0x00EC, 0x00C4, 0x00C5,
   0x00C9, 0x00E6, 0x00C6, 0x00F4, 0x00F6, 0x00F2, 0x00FB, 0x00F9,
   0x00FF, 0x00D6, 0x00DC, 0x00A2, 0x00A3, 0x00A5, 0x20A7, 0x0192,
   0x00E1, 0x00ED, 0x00F3, 0x00FA, 0x00F1, 0x00D1, 0x00AA, 0x00BA,
   0x00BF, 0x2310, 0x00AC, 0x00BD, 0x00BC, 0x00A1, 0x00AB, 0x00BB,
   0x2591, 0x2592, 0x2593, 0x2502, 0x2524, 0x2561, 0x2562, 0x2556,
   0x2555, 0x2563, 0x2551, 0x2557, 0x255D, 0x255C, 0x255B, 0x2510,
   0x2514, 0x2534, 0x252C, 0x251C, 0x2500, 0x253C, 0x255E, 0x255F,
   0x255A, 0x2554, 0x2569, 0x2566, 0x2560, 0x2550, 0x256C, 0x2567,
   0x2568, 0x2564, 0x2565, 0x2559, 0x2558, 0x2552, 0x2553, 0x256B,
   0x256A, 0x2518, 0x250C, 0x2588, 0x2584, 0x258C, 0x2590, 0x2580,
   0x03B1, 0x00DF, 0x0393, 0x03C0, 0x03A3, 0x03C3, 0x00B5, 0x03C4,
   0x03A6, 0x0398, 0x03A9, 0x03B4, 0x221E, 0x03C6, 0x03B5, 0x2229,
   0x2261, 0x00B1, 0x2265, 0x2264, 0x2320, 0x2321, 0x00F7, 0x2248,
   0x00B0, 0x2219, 0x00B7, 0x221A, 0x207F, 0x00B2, 0x25A0, 0x00A0]

/-- Decode one byte through the code page. -/
def decodeByte (b : Nat) : Nat := cp437Table.getD b 0

/-- Scan of the decode table for a code point, returning the byte it
encodes to; `none` if the code point is not in the code page.  Index
accumulator starts at `i`. -/
def encodeIn (l : List Nat) (c : Nat) (i : Nat) : Option Nat :=
  match l with
  | [] => none
  | x :: xs => if x = c then some i else encodeIn xs c (i + 1)

/-- Encode one code point through the code page
(`ToCp437` for a single character). -/
def encodeChar (c : Nat) : Option Nat := encodeIn cp437Table c 0

/-- `str::to_cp437`: encode every character or fail. -/
def encodeString : List Nat → Option (List Nat)
  | [] => some []
  | c :: cs => do
    let b ← encodeChar c
    let bs ← encodeString cs
    pure (b :: bs)

/-- The Unicode `White_Space` code points, the set Rust's
`char::is_whitespace` (and hence `str::trim_end`) strips. -/
def rustWhitespace : List Nat :=
  [0x0009, 0x000A, 0x000B, 0x000C, 0x000D, 0x0020, 0x0085, 0x00A0,
   0x1680, 0x2000, 0x2001, 0x2002, 0x2003, 0x2004, 0x2005, 0x2006,
   0x2007, 0x2008, 0x2009, 0x200A, 0x2028, 0x2029, 0x202F, 0x205F,
   0x3000]

/-- `char::is_whitespace`. -/
def isRustWhitespace (c : Nat) : Bool := rustWhitespace.contains c

/-- `str::trim_end`: drop trailing characters satisfying
`char::is_whitespace`. -/
def trimEnd (s : List Nat) : List Nat :=
  ((s.reverse).dropWhile isRustWhitespace).reverse

/-- `<String as IncomingPacketType>::load`: read exactly 64 bytes, decode
through the code page (infallible), trim trailing whitespace. -/
def loadString : ReadM (List Nat) := do
  let buf ← readExact 64
  pure (trimEnd (buf.map decodeByte))

/-- <code>&lt;[u8; 1024] as IncomingPacketType&gt;::load</code>. -/
def loadBytes1024 : ReadM (List Nat) := readExact 1024

/-- `packets::Incoming` (the enum itself is absent from the source tree;
its variants and fields are those constructed by
`<Incoming as IncomingPacketType>::load`). -/
inductive Incoming where
  | PlayerIdentification (version : Nat) (username : List Nat) (key : List Nat)
  | SetBlock (position : Vector3 Nat) (state : Nat)
  | SetLocation (location : Location)
  | Message (message : List Nat)
  deriving DecidableEq, Repr

/-- The `0x00` arm of `<Incoming as IncomingPacketType>::load`: version,
username, key, then one discarded padding byte. -/
def loadPlayerIdentification : ReadM Incoming := do
  let version ← loadU8
  let username ← loadString
  let key ← loadString
  let ret := Incoming.PlayerIdentification version username key
  let _ ← loadU8
  pure ret

/-- The `0x05` arm: position, mode byte, block-id byte. -/
def loadSetBlockArm : ReadM Incoming := do
  let position ← loadVector3 loadU16
  let modeByte ← loadU8
  let mode := modeByte ≠ 0
  let id ← loadU8
  pure (Incoming.SetBlock position (if mode then id else 0))

/-- The `0x08` arm: one discarded padding byte, then a `Location`. -/
def loadSetLocationArm : ReadM Incoming := do
  let _ ← loadU8
  let location ← loadLocation
  pure (Incoming.SetLocation location)

/-- The `0x0d` arm: one discarded padding byte, then 64 bytes of text. -/
def loadMessageArm : ReadM Incoming := do
  let _ ← loadU8
  let message ← loadString
  pure (Incoming.Message message)

/-- `<Incoming as IncomingPacketType>::load`: one discriminant byte, then
dispatch; an unknown discriminant is an `InvalidData` error. -/
def loadIncoming : ReadM Incoming := do
  let discriminant ← loadU8
  if discriminant = 0x00 then loadPlayerIdentification
  else if discriminant = 0x05 then loadSetBlockArm
  else if discriminant = 0x08 then loadSetLocationArm
  else if discriminant = 0x0d then loadMessageArm
  else fun s => (Except.error Err.invalidData, s)

/-! ### Outgoing (store) side.  A store computation returns the bytes it
writes to the stream, or the error that aborts the write. -/

/-- `<u8 as OutgoingPacketType>::store`. -/
def storeU8 (b : Nat) : Except Err (List Nat) := Except.ok [b]

/-- `<i8 as OutgoingPacketType>::store`: `*self as u8`. -/
def storeI8 (i : Int) : Except Err (List Nat) := Except.ok [(i % 256).toNat]

/-- `<u16 as OutgoingPacketType>::store`: big-endian bytes. -/
def storeU16 (n : Nat) : Except Err (List Nat) :=
  Except.ok [n / 256 % 256, n % 256]

/-- `<x8 as OutgoingPacketType>::store`: `self.to_bits() as u8`. -/
def storeX8 (v : x8) : Except Err (List Nat) :=
  Except.ok [(v.to_bits % 256).toNat]

/-- `<x16 as OutgoingPacketType>::store`: `to_be_bytes` of the raw
16-bit pattern. -/
def storeX16 (v : x16) : Except Err (List Nat) :=
  Except.ok [(v.raw % 65536).toNat / 256, (v.raw % 65536).toNat % 256]

/-- Overwrite the prefix of `buf` with `pre`
(`buf[..pre.len()].copy_from_slice(&pre)`). -/
def copyPrefix (buf pre : List Nat) : List Nat := pre ++ buf.drop pre.length

/-- `<String as OutgoingPacketType>::store`: encode through the code page
(`InvalidData` if some character is unrepresentable), truncate the
encoding to 64 bytes, copy it over a buffer of 64 spaces, write the
buffer. -/
def storeString (s : List Nat) : Except Err (List Nat) :=
  match encodeString s with
  | none => Except.error Err.invalidData
  | some slice =>
    Except.ok (copyPrefix (List.replicate 64 0x20)
      (slice.take (min slice.length 64)))

/-- The 64-byte wire form of an encoded text: the encoding truncated to
its first 64 bytes, right-padded with spaces to 64. -/
def pad64 (bs : List Nat) : List Nat :=
  bs.take 64 ++ List.replicate (64 - min bs.length 64) 0x20

/-- Stated from the spec's words, for comparison with the code's
behaviour: strip trailing *space* characters only ("yields the original
text with trailing spaces stripped"). -/
def stripTrailingSpacesSpec (s : List Nat) : List Nat :=
  ((s.reverse).dropWhile (fun c => c == 0x20)).reverse

/-- `<Vector3<T> as OutgoingPacketType>::store`: components in `x, y, z`
order. -/
def storeVector3 {α : Type} (storeT : α → Except Err (List Nat))
    (v : Vector3 α) : Except Err (List Nat) := do
  let bx ← storeT v.x
  let by' ← storeT v.y
  let bz ← storeT v.z
  pure (bx ++ by' ++ bz)

/-- `<Location as OutgoingPacketType>::store`: position, yaw, pitch. -/
def storeLocation (l : Location) : Except Err (List Nat) := do
  let bp ← storeVector3 storeX16 l.position
  let byaw ← storeU8 l.yaw
  let bpitch ← storeU8 l.pitch
  pure (bp ++ byaw ++ bpitch)

/-- <code>&lt;[u8; 1024] as OutgoingPacketType&gt;::store</code>. -/
def storeBytes1024 (b : List Nat) : Except Err (List Nat) := Except.ok b

/-- `packets::Outgoing` (the enum itself is absent from the source tree;
its variants and fields are those matched by
`<Outgoing as OutgoingPacketType>::store`). -/
inductive Outgoing where
  | ServerIdentification (version : Nat) (name : List Nat) (motd : List Nat)
      (operator : Bool)
  | Ping
  | LevelInit
  | LevelDataChunk (data_length : Nat) (data_chunk : List Nat)
      (percent_complete : Nat)
  | LevelFinalize (size : Vector3 Nat)
  | SetBlock (position : Vector3 Nat) (block : Nat)
  | SpawnPlayer (id : Int) (name : List Nat) (location : Location)
  | TeleportPlayer (id : Int) (location : Location)
  | UpdatePlayerLocation (id : Int) (position_change : Vector3 x8)
      (yaw : Nat) (pitch : Nat)
  | UpdatePlayerPosition (id : Int) (position_change : Vector3 x8)
  | UpdatePlayerRotation (id : Int) (yaw : Nat) (pitch : Nat)
  | DespawnPlayer (id : Int)
  | Message (id : Int) (message : List Nat)
  | Disconnect (reason : List Nat)
  | UpdateUser (operator : Bool)
  deriving DecidableEq, Repr

/-- `<Outgoing as OutgoingPacketType>::store`: the discriminant byte for
the variant, then its fields in order. -/
def storeOutgoing : Outgoing → Except Err (List Nat)
  | .ServerIdentification version name motd operator => do
    let b0 ← storeU8 0x0
    let b1 ← storeU8 version
    let b2 ← storeString name
    let b3 ← storeString motd
    let b4 ← storeU8 (if operator then 0x64 else 0x00)
    pure (b0 ++ b1 ++ b2 ++ b3 ++ b4)
  | .Ping => storeU8 0x1
  | .LevelInit => storeU8 0x2
  | .LevelDataChunk data_length data_chunk percent_complete => do
    let b0 ← storeU8 0x3
    let b1 ← storeU16 data_length
    let b2 ← storeBytes1024 data_chunk
    let b3 ← storeU8 percent_complete
    pure (b0 ++ b1 ++ b2 ++ b3)
  | .LevelFinalize size => do
    let b0 ← storeU8 0x4
    let b1 ← storeVector3 storeU16 size
    pure (b0 ++ b1)
  | .SetBlock position block => do
    let b0 ← storeU8 0x6
    let b1 ← storeVector3 storeU16 position
    let b2 ← storeU8 block
    pure (b0 ++ b1 ++ b2)
  | .SpawnPlayer id name location => do
    let b0 ← storeU8 0x7
    let b1 ← storeI8 id
    let b2 ← storeString name
    let b3 ← storeLocation location
    pure (b0 ++ b1 ++ b2 ++ b3)
  | .TeleportPlayer id location => do
    let b0 ← storeU8 0x8
    let b1 ← storeI8 id
    let b2 ← storeLocation location
    pure (b0 ++ b1 ++ b2)
  | .UpdatePlayerLocation id position_change yaw pitch => do
    let b0 ← storeU8 0x9
    let b1 ← storeI8 id
    let b2 ← storeVector3 storeX8 position_change
    let b3 ← storeU8 yaw
    let b4 ← storeU8 pitch
    pure (b0 ++ b1 ++ b2 ++ b3 ++ b4)
  | .UpdatePlayerPosition id position_change => do
    let b0 ← storeU8 0xa
    let b1 ← storeI8 id
    let b2 ← storeVector3 storeX8 position_change
    pure (b0 ++ b1 ++ b2)
  | .UpdatePlayerRotation id yaw pitch => do
    let b0 ← storeU8 0xb
    let b1 ← storeI8 id
    let b2 ← storeU8 yaw
    let b3 ← storeU8 pitch
    pure (b0 ++ b1 ++ b2 ++ b3)
  | .DespawnPlayer id => do
    let b0 ← storeU8 0xc
    let b1 ← storeI8 id
    pure (b0 ++ b1)
  | .Message id message => do
    let b0 ← storeU8 0xd
    let b1 ← storeI8 id
    let b2 ← storeString message
    pure (b0 ++ b1 ++ b2)
  | .Disconnect reason => do
    let b0 ← storeU8 0xe
    let b1 ← storeString reason
    pure (b0 ++ b1)
  | .UpdateUser operator => do
    let b0 ← storeU8 0xf
    let b1 ← storeU8 (if operator then 0x64 else 0)
    pure (b0 ++ b1)

/-! ### Wire-table descriptions (§6 of the spec), used to state the
flattened byte layout the encoder must produce. -/

/-- Big-endian byte pair of a 16-bit unsigned value. -/
def be16 (n : Nat) : List Nat := [n / 256 % 256, n % 256]

/-- The byte of a signed 8-bit value (two's complement). -/
def i8Byte (i : Int) : Nat := (i % 256).toNat

/-- The byte of an 8-bit scaled integer (its raw bit pattern). -/
def x8Byte (v : x8) : Nat := (v.raw % 256).toNat

/-- Big-endian byte pair of a 16-bit scaled integer (its raw bit
pattern). -/
def x16Bytes (v : x16) : List Nat :=
  [(v.raw % 65536).toNat / 256, (v.raw % 65536).toNat % 256]

/-- Wire bytes of a `Location`: position components in axis order, then
yaw, then pitch. -/
def locationBytes (l : Location) : List Nat :=
  x16Bytes l.position.x ++ x16Bytes l.position.y ++ x16Bytes l.position.z ++
    [l.yaw, l.pitch]

/-! ### Session registry (`src/lib/src/server.rs`).  The `HashMap`s are
embedded as association lists with at most one entry per key. -/

/-- `HashMap::get`: first value stored under `k`. -/
def lookupKey {V : Type} : List (String × V) → String → Option V
  | [], _ => none
  | (k', v) :: rest, k => if k' = k then some v else lookupKey rest k

/-- `HashMap::remove`: the value stored under `k`, if any, and the map
without that entry. -/
def removeKey {V : Type} : List (String × V) → String → Option V × List (String × V)
  | [], _ => (none, [])
  | (k', v) :: rest, k =>
    if k' = k then (some v, rest)
    else ((removeKey rest k).1, (k', v) :: (removeKey rest k).2)

/-- In-place mutation through `HashMap::get_mut`: replace the value
stored under `k`. -/
def updateKey {V : Type} : List (String × V) → String → V → List (String × V)
  | [], _, _ => []
  | (k', v) :: rest, k, w =>
    if k' = k then (k', w) :: rest else (k', v) :: updateKey rest k w

/-- Modelled from the spec: `World` (out-of-scope collaborator, absent
from the source tree) — the only interface the registry needs is the set
of occupied player slots and `remove_player(id)`, which frees the slot. -/
structure World where
  players : List Int
  deriving DecidableEq, Repr

/-- Modelled from the spec: `World::remove_player` frees the player
slot. -/
def World.remove_player (w : World) (id : Int) : World :=
  ⟨w.players.filter (fun p => p ≠ id)⟩

/-- `server::Config` (durations in nanoseconds, IPs as strings). -/
structure Config where
  packet_timeout : Nat
  ping_spacing : Nat
  default_world : String
  banned_ips : List String
  kept_salts : Nat
  name : String
  heartbeat_url : String
  heartbeat_retries : Nat
  heartbeat_spacing : Nat
  port : Nat
  deriving DecidableEq, Repr

/-- `server::Server`: world table, configuration, bounded salt history,
connected-player index (username ↦ (world name, in-world id)). -/
structure Server where
  worlds : List (String × World)
  config : Config
  last_salts : List String
  players_connected : List (String × (String × Int))
  deriving DecidableEq, Repr

/-- `Server::disconnect`: remove the player's index entry; if it existed
and its world is in the table, forward `remove_player(id)` to that
world. -/
def Server.disconnect (s : Server) (username : String) : Server :=
  let (entry, players') := removeKey s.players_connected username
  match entry with
  | none => { s with players_connected := players' }
  | some (wname, id) =>
    match lookupKey s.worlds wname with
    | none => { s with players_connected := players' }
    | some w =>
      { s with players_connected := players',
               worlds := updateKey s.worlds wname (w.remove_player id) }

/-! ### Duration deserialization (`src/src/structs.rs`, `duration_float`).
IEEE `f64` values are embedded symbolically: a finite value is an exact
rational, and the three non-finite classes are explicit; `is_finite` and
the comparison with `0.0` are exact on this fragment (`+∞ > 0` is true,
every comparison with NaN is false). -/

/-- Symbolic `f64`. -/
inductive F64 where
  | finite (q : ℚ)
  | posInf
  | negInf
  | nan
  deriving DecidableEq

/-- `f64::is_finite`. -/
def F64.isFinite : F64 → Bool
  | .finite _ => true
  | _ => false

/-- The comparison `v > 0.0`. -/
def F64.gtZero : F64 → Bool
  | .finite q => decide (0 < q)
  | .posInf => true
  | .negInf => false
  | .nan => false

/-- Modelled from the spec: `Duration::from_secs_f64` (standard library,
outside the source tree) — "the duration of that many seconds", as an
exact rational number of seconds; only ever applied under the visitor's
finite-and-positive guard. -/
def durationFromSecsF64 : F64 → ℚ
  | .finite q => q
  | _ => 0

/-- `duration_float`'s `Visit::visit_f64`: accept iff
`v.is_finite() && v > 0.0`, otherwise a custom deserialization error. -/
def visitF64 (v : F64) : Except String ℚ :=
  if v.isFinite && v.gtZero then Except.ok (durationFromSecsF64 v)
  else Except.error "duration must be positive, non-zero, and finite"

/-- A reader consumes exactly `n` bytes: it succeeds, leaving the stream
minus its first `n` bytes, whenever at least `n` bytes are available, and
fails with `UnexpectedEof` whenever fewer are. -/
def ReadsExactly {α : Type} (n : Nat) (m : ReadM α) : Prop :=
  ∀ s : List Nat,
    (n ≤ s.length → ∃ a, m s = (Except.ok a, s.drop n)) ∧
    (s.length < n → (m s).1 = Except.error Err.unexpectedEof)

/-! ### Helper lemmas. -/

@[simp] theorem ReadM.pure_apply {α : Type} (a : α) (s : List Nat) :
    (pure a : ReadM α) s = (Except.ok a, s) := rfl

@[simp] theorem ReadM.bind_apply {α β : Type} (m : ReadM α) (f : α → ReadM β)
    (s : List Nat) :
    (m >>= f) s =
      match m s with
      | (Except.ok a, s') => f a s'
      | (Except.error e, s') => (Except.error e, s') := rfl

theorem lookupKey_eq_removeKey_fst {V : Type} (l : List (String × V)) (k : String) :
    lookupKey l k = (removeKey l k).1 := by
  induction l with
  | nil => rfl
  | cons hd tl ih =>
    obtain ⟨k', v⟩ := hd
    simp only [lookupKey, removeKey]
    split
    · rfl
    · simpa using ih

theorem removeKey_of_lookup_none {V : Type} (l : List (String × V)) (k : String)
    (h : lookupKey l k = none) : removeKey l k = (none, l) := by
  induction l with
  | nil => rfl
  | cons hd tl ih =>
    obtain ⟨k', v⟩ := hd
    simp only [lookupKey] at h
    simp only [removeKey]
    rcases eq_or_ne k' k with heq | hne
    · simp [heq] at h
    · simp only [if_neg hne] at h ⊢
      simp [ih h]

theorem lookupKey_eq_none_of_not_mem {V : Type} (l : List (String × V)) (k : String)
    (h : k ∉ l.map Prod.fst) : lookupKey l k = none := by
  induction l with
  | nil => rfl
  | cons hd tl ih =>
    obtain ⟨k', v⟩ := hd
    simp only [List.map_cons, List.mem_cons] at h
    push_neg at h
    have h1 : k' ≠ k := fun e => h.1 e.symm
    simp only [lookupKey, if_neg h1]
    exact ih h.2

theorem lookupKey_removeKey_of_nodup {V : Type} (l : List (String × V)) (k : String)
    (h : (l.map Prod.fst).Nodup) : lookupKey (removeKey l k).2 k = none := by
  induction l with
  | nil => rfl
  | cons hd tl ih =>
    obtain ⟨k', v⟩ := hd
    simp only [List.map_cons, List.nodup_cons] at h
    simp only [removeKey]
    rcases eq_or_ne k' k with heq | hne
    · simp only [if_pos heq]
      exact lookupKey_eq_none_of_not_mem tl k (heq ▸ h.1)
    · simp only [if_neg hne, lookupKey]
      exact ih h.2

/-! ### Claim theorems. -/

/-- C7: if a username is in the connected-player index and its world is in
the world table, `Server::disconnect` removes the index entry and replaces
the owning world by the result of forwarding `remove_player(id)` to it,
leaving the configuration and salt history unchanged. -/
theorem C7_disconnect_removes_and_forwards
    (s : Server) (u wname : String) (id : Int) (w : World)
    (hplayer : lookupKey s.players_connected u = some (wname, id))
    (hworld : lookupKey s.worlds wname = some w) :
    (s.disconnect u).players_connected = (removeKey s.players_connected u).2 ∧
    (s.disconnect u).worlds = updateKey s.worlds wname (w.remove_player id) ∧
    (s.disconnect u).config = s.config ∧
    (s.disconnect u).last_salts = s.last_salts ∧
    ((s.players_connected.map Prod.fst).Nodup →
      lookupKey (s.disconnect u).players_connected u = none) := by
  have hfst : (removeKey s.players_connected u).1 = some (wname, id) :=
    (lookupKey_eq_removeKey_fst _ _) ▸ hplayer
  refine ⟨?_, ?_, ?_, ?_, fun hnd => ?_⟩ <;>
    simp only [Server.disconnect, hfst, hworld]
  exact lookupKey_removeKey_of_nodup _ _ hnd

/-- C7 witness: a concrete server with Alice connected to world `w`. -/
theorem C7_disconnect_removes_and_forwards_witness :
    (let w : World := ⟨[3, 7]⟩
     let s : Server :=
       { worlds := [("w", w)],
         config := { packet_timeout := 1, ping_spacing := 1,
                     default_world := "w", banned_ips := [], kept_salts := 0,
                     name := "n", heartbeat_url := "", heartbeat_retries := 0,
                     heartbeat_spacing := 1, port := 25565 },
         last_salts := [],
         players_connected := [("Alice", ("w", 3))] }
     (s.disconnect "Alice").players_connected =
        (removeKey s.players_connected "Alice").2 ∧
     (s.disconnect "Alice").worlds =
        updateKey s.worlds "w" (World.remove_player w 3) ∧
     (s.disconnect "Alice").config = s.config ∧
     (s.disconnect "Alice").last_salts = s.last_salts ∧
     ((s.players_connected.map Prod.fst).Nodup →
       lookupKey (s.disconnect "Alice").players_connected "Alice" = none)) :=
  C7_disconnect_removes_and_forwards _ "Alice" "w" 3 ⟨[3, 7]⟩
    (by decide) (by decide)

/-- C8: disconnecting a username that is not in the connected-player index
leaves the whole server state unchanged. -/
theorem C8_disconnect_idempotent
    (s : Server) (u : String)
    (h : lookupKey s.players_connected u = none) :
    s.disconnect u = s := by
  have hrm : removeKey s.players_connected u = (none, s.players_connected) :=
    removeKey_of_lookup_none _ _ h
  simp only [Server.disconnect, hrm]

/-- C8 witness: disconnecting an unknown user from a concrete server. -/
theorem C8_disconnect_idempotent_witness :
    (let s : Server :=
       { worlds := [("w", ⟨[1]⟩)],
         config := { packet_timeout := 1, ping_spacing := 1,
                     default_world := "w", banned_ips := [], kept_salts := 0,
                     name := "n", heartbeat_url := "", heartbeat_retries := 0,
                     heartbeat_spacing := 1, port := 25565 },
         last_salts := ["s1"],
         players_connected := [("Bob", ("w", 1))] }
     s.disconnect "Alice" = s) :=
  C8_disconnect_idempotent _ "Alice" (by decide)

/-- C9: if the username is indexed but its recorded world is absent from
the world table, `Server::disconnect` still removes the index entry while
leaving every world, the configuration and the salt history unchanged. -/
theorem C9_disconnect_dangling_world
    (s : Server) (u wname : String) (id : Int)
    (hplayer : lookupKey s.players_connected u = some (wname, id))
    (hworld : lookupKey s.worlds wname = none) :
    (s.disconnect u).players_connected = (removeKey s.players_connected u).2 ∧
    (s.disconnect u).worlds = s.worlds ∧
    (s.disconnect u).config = s.config ∧
    (s.disconnect u).last_salts = s.last_salts ∧
    ((s.players_connected.map Prod.fst).Nodup →
      lookupKey (s.disconnect u).players_connected u = none) := by
  have hfst : (removeKey s.players_connected u).1 = some (wname, id) :=
    (lookupKey_eq_removeKey_fst _ _) ▸ hplayer
  refine ⟨?_, ?_, ?_, ?_, fun hnd => ?_⟩ <;>
    simp only [Server.disconnect, hfst, hworld]
  exact lookupKey_removeKey_of_nodup _ _ hnd

/-- C9 witness: Alice's entry names a world that is not in the table. -/
theorem C9_disconnect_dangling_world_witness :
    (let s : Server :=
       { worlds := [("w", ⟨[1]⟩)],
         config := { packet_timeout := 1, ping_spacing := 1,
                     default_world := "w", banned_ips := [], kept_salts := 0,
                     name := "n", heartbeat_url := "", heartbeat_retries := 0,
                     heartbeat_spacing := 1, port := 25565 },
         last_salts := [],
         players_connected := [("Alice", ("ghost", 3))] }
     (s.disconnect "Alice").players_connected =
        (removeKey s.players_connected "Alice").2 ∧
     (s.disconnect "Alice").worlds = s.worlds ∧
     (s.disconnect "Alice").config = s.config ∧
     (s.disconnect "Alice").last_salts = s.last_salts ∧
     ((s.players_connected.map Prod.fst).Nodup →
       lookupKey (s.disconnect "Alice").players_connected "Alice" = none)) :=
  C9_disconnect_dangling_world _ "Alice" "ghost" 3 (by decide) (by decide)

/-- C10: the duration deserializer accepts a floating-point value exactly
when it is finite and strictly positive, yielding that many seconds, and
rejects zero, negative, infinite and NaN values with an error. -/
theorem C10_duration_float_guard :
    (∀ q : ℚ, 0 < q → visitF64 (F64.finite q) = Except.ok q) ∧
    (∀ q : ℚ, q ≤ 0 → visitF64 (F64.finite q) =
      Except.error "duration must be positive, non-zero, and finite") ∧
    visitF64 F64.posInf =
      Except.error "duration must be positive, non-zero, and finite" ∧
    visitF64 F64.negInf =
      Except.error "duration must be positive, non-zero, and finite" ∧
    visitF64 F64.nan =
      Except.error "duration must be positive, non-zero, and finite" := by
  refine ⟨fun q hq => ?_, fun q hq => ?_, rfl, rfl, rfl⟩
  · simp [visitF64, F64.isFinite, F64.gtZero, durationFromSecsF64, hq]
  · simp [visitF64, F64.isFinite, F64.gtZero, durationFromSecsF64, not_lt.mpr hq]

theorem encodeIn_spec (l : List Nat) (c : Nat) :
    ∀ i j, encodeIn l c i = some j → i ≤ j ∧ l.getD (j - i) 0 = c := by
  induction l with
  | nil => intro i j h; simp [encodeIn] at h
  | cons x xs ih =>
    intro i j h
    simp only [encodeIn] at h
    rcases eq_or_ne x c with heq | hne
    · simp only [if_pos heq] at h
      obtain rfl : i = j := Option.some.inj h
      simp [heq]
    · simp only [if_neg hne] at h
      obtain ⟨h1, h2⟩ := ih (i + 1) j h
      refine ⟨by omega, ?_⟩
      have hji : j - i = (j - (i + 1)) + 1 := by omega
      rw [hji, List.getD_cons_succ]
      exact h2

theorem decodeByte_encodeChar {c b : Nat} (h : encodeChar c = some b) :
    decodeByte b = c := by
  obtain ⟨_, h2⟩ := encodeIn_spec cp437Table c 0 b h
  simpa [decodeByte] using h2

theorem encodeString_map_decode :
    ∀ (s bs : List Nat), encodeString s = some bs → bs.map decodeByte = s := by
  intro s
  induction s with
  | nil => intro bs h; obtain rfl : [] = bs := Option.some.inj h; rfl
  | cons c cs ih =>
    intro bs h
    simp only [encodeString, Option.bind_eq_bind] at h
    cases hc : encodeChar c with
    | none => rw [hc] at h; simp at h
    | some b =>
      rw [hc] at h
      cases hcs : encodeString cs with
      | none => rw [hcs] at h; simp at h
      | some bs' =>
        rw [hcs] at h
        simp at h
        subst h
        simp [List.map_cons, decodeByte_encodeChar hc, ih bs' hcs]

theorem encodeString_none_iff :
    ∀ s : List Nat, encodeString s = none ↔ ∃ c ∈ s, encodeChar c = none := by
  intro s
  induction s with
  | nil => simp [encodeString]
  | cons c cs ih =>
    cases hc : encodeChar c with
    | none =>
      simp only [encodeString, Option.bind_eq_bind, hc, Option.none_bind,
        true_iff]
      exact ⟨c, List.mem_cons_self c cs, hc⟩
    | some b =>
      cases hcs : encodeString cs with
      | none =>
        simp only [encodeString, Option.bind_eq_bind, hc, Option.some_bind,
          hcs, Option.none_bind, true_iff]
        obtain ⟨x, hx, hxe⟩ := ih.mp hcs
        exact ⟨x, List.mem_cons_of_mem c hx, hxe⟩
      | some bs' =>
        simp only [encodeString, Option.bind_eq_bind, hc, Option.some_bind,
          hcs, Option.pure_def, Option.bind_some]
        constructor
        · intro h; simp at h
        · rintro ⟨x, hx, hxe⟩
          rcases List.mem_cons.mp hx with rfl | hx'
          · rw [hc] at hxe; simp at hxe
          · have : encodeString cs = none := ih.mpr ⟨x, hx', hxe⟩
            rw [hcs] at this; simp at this

theorem storeString_of_encode_some {s bs : List Nat}
    (h : encodeString s = some bs) :
    storeString s = Except.ok (pad64 bs) ∧ (pad64 bs).length = 64 := by
  have htake : bs.take (min bs.length 64) = bs.take 64 := by
    rcases le_total bs.length 64 with hle | hge
    · rw [min_eq_left hle, List.take_length, List.take_of_length_le hle]
    · rw [min_eq_right hge]
  have hlen : (bs.take 64).length = min bs.length 64 := by
    rw [List.length_take]; omega
  constructor
  · simp only [storeString, h, copyPrefix, pad64, htake, hlen,
      List.drop_replicate]
  · simp only [pad64, List.length_append, List.length_take,
      List.length_replicate]
    omega

/-- C2: for every text, a successful `String::store` writes exactly 64
bytes — the code-page encoding truncated to its first 64 bytes and
right-padded with spaces — and it fails with `InvalidData` exactly when
some character of the text is not representable in the code page. -/
theorem C2_string_store_contract :
    (∀ s bs : List Nat, encodeString s = some bs →
      storeString s = Except.ok (pad64 bs) ∧ (pad64 bs).length = 64) ∧
    (∀ s : List Nat, encodeString s = none →
      storeString s = Except.error Err.invalidData) ∧
    (∀ s : List Nat, encodeString s = none ↔ ∃ c ∈ s, encodeChar c = none) :=
  ⟨fun _ _ h => storeString_of_encode_some h,
   fun s h => by simp [storeString, h],
   encodeString_none_iff⟩

set_option maxRecDepth 4000 in
/-- C2 witness: `"Hi"` (two representable characters) stores as `"Hi"`
plus 62 spaces; a text containing U+2603 (snowman, not in the code page)
fails with `InvalidData`. -/
theorem C2_string_store_contract_witness :
    (storeString [0x48, 0x69] =
      Except.ok (pad64 [0x48, 0x69]) ∧ (pad64 [0x48, 0x69]).length = 64) ∧
    storeString [0x2603] = Except.error Err.invalidData :=
  ⟨C2_string_store_contract.1 [0x48, 0x69] [0x48, 0x69] rfl,
   C2_string_store_contract.2.1 [0x2603] rfl⟩

theorem readExact_append (s rest : List Nat) :
    readExact s.length (s ++ rest) = (Except.ok s, rest) := by
  induction s with
  | nil => rfl
  | cons b tl ih => simp [readExact, List.length_cons, ih]

theorem dropWhile_replicate_space (k : Nat) (l : List Nat) :
    List.dropWhile isRustWhitespace (List.replicate k 0x20 ++ l) =
      List.dropWhile isRustWhitespace l := by
  have h32 : isRustWhitespace 0x20 = true := rfl
  induction k with
  | zero => simp
  | succ n ih => simp [List.replicate_succ, List.dropWhile_cons, h32, ih]

theorem trimEnd_append_spaces (s : List Nat) (k : Nat) :
    trimEnd (s ++ List.replicate k 0x20) = trimEnd s := by
  simp only [trimEnd, List.reverse_append, List.reverse_replicate,
    dropWhile_replicate_space]

theorem loadString_append (buf rest : List Nat) (h : buf.length = 64) :
    loadString (buf ++ rest) =
      (Except.ok (trimEnd (buf.map decodeByte)), rest) := by
  have hre := readExact_append buf rest
  rw [h] at hre
  simp [loadString, hre]

/-- C3 (amended): for every text whose code-page encoding is at most 64
bytes, `String::store` followed by `String::load` yields the original
text with trailing *whitespace* stripped — `load` uses Rust's
`str::trim_end`, which strips every trailing `White_Space` character
(for example U+00A0, the decoding of byte `0xFF`), not only spaces. -/
theorem C3_store_load_roundtrip_amended (s bs rest : List Nat)
    (henc : encodeString s = some bs) (hlen : bs.length ≤ 64) :
    storeString s = Except.ok (pad64 bs) ∧
    loadString (pad64 bs ++ rest) = (Except.ok (trimEnd s), rest) := by
  obtain ⟨hstore, hlen64⟩ := storeString_of_encode_some henc
  refine ⟨hstore, ?_⟩
  rw [loadString_append _ _ hlen64]
  have hpad : pad64 bs = bs ++ List.replicate (64 - bs.length) 0x20 := by
    simp [pad64, List.take_of_length_le hlen, min_eq_left hlen]
  have hdec : decodeByte 0x20 = 0x20 := rfl
  rw [hpad, List.map_append, List.map_replicate, hdec,
    encodeString_map_decode s bs henc, trimEnd_append_spaces]

set_option maxRecDepth 8000 in
/-- C3 witness: `"Hi "` (with one trailing space) stores to 64 bytes and
loads back as `"Hi"`. -/
theorem C3_store_load_roundtrip_amended_witness :
    storeString [0x48, 0x69, 0x20] =
      Except.ok (pad64 [0x48, 0x69, 0x20]) ∧
    loadString (pad64 [0x48, 0x69, 0x20] ++ [7]) =
      (Except.ok (trimEnd [0x48, 0x69, 0x20]), [7]) :=
  C3_store_load_roundtrip_amended [0x48, 0x69, 0x20] [0x48, 0x69, 0x20] [7]
    rfl (by norm_num)

set_option maxRecDepth 8000 in
/-- C3 counterexample: the claim as stated fails on the one-character
text U+00A0 (no-break space).  Its code-page encoding is the single byte
`0xFF` (1 ≤ 64 bytes), but storing and re-loading yields the empty text,
not the original text with trailing *spaces* stripped, which would be
U+00A0 itself: `trim_end` also strips the non-break space. -/
theorem C3_store_load_roundtrip_counterexample :
    encodeString [0xA0] = some [0xFF] ∧
    storeString [0xA0] = Except.ok (pad64 [0xFF]) ∧
    loadString (pad64 [0xFF] ++ []) = (Except.ok [], []) ∧
    stripTrailingSpacesSpec [0xA0] = [0xA0] ∧
    ([] : List Nat) ≠ stripTrailingSpacesSpec [0xA0] := by
  refine ⟨rfl, rfl, ?_, rfl, by decide⟩
  rfl

theorem toI8_emod (i : Int) (h1 : -128 ≤ i) (h2 : i < 128) :
    toI8 ((i % 256).toNat) = i := by
  unfold toI8
  split <;> omega

theorem x16_from_be_bytes_emod (i : Int) (h1 : -32768 ≤ i) (h2 : i < 32768) :
    x16.from_be_bytes ((i % 65536).toNat / 256) ((i % 65536).toNat % 256) =
      ⟨i⟩ := by
  unfold x16.from_be_bytes
  rw [x16.mk.injEq]
  split <;> omega

/-- C4: for every representable 8-bit and 16-bit scaled-integer value, the
primitive codec's store followed by load returns the identical value (the
raw two's-complement pattern crosses the wire exactly), and
`from_bits (to_bits v) = v`. -/
theorem C4_scaled_integer_roundtrip :
    (∀ (v : x8) (rest : List Nat), -128 ≤ v.raw → v.raw < 128 →
      ∃ bytes, storeX8 v = Except.ok bytes ∧
        loadX8 (bytes ++ rest) = (Except.ok v, rest)) ∧
    (∀ (v : x16) (rest : List Nat), -32768 ≤ v.raw → v.raw < 32768 →
      ∃ bytes, storeX16 v = Except.ok bytes ∧
        loadX16 (bytes ++ rest) = (Except.ok v, rest)) ∧
    (∀ i : Int, (x8.from_bits i).to_bits = i) := by
  refine ⟨fun v rest h1 h2 => ⟨_, rfl, ?_⟩,
          fun v rest h1 h2 => ⟨_, rfl, ?_⟩,
          fun i => rfl⟩
  · obtain ⟨raw⟩ := v
    have hb : toI8 ((raw % 256).toNat) = raw := toI8_emod _ h1 h2
    simp [loadX8, readByte, x8.from_bits, x8.to_bits, hb]
  · obtain ⟨raw⟩ := v
    have hb : x16.from_be_bytes ((raw % 65536).toNat / 256)
        ((raw % 65536).toNat % 256) = ⟨raw⟩ :=
      x16_from_be_bytes_emod _ h1 h2
    simp [loadX16, readByte, hb]

/-- C4 witness: round-trips at `x8` raw value `-1` and `x16` raw value
`-32768`. -/
theorem C4_scaled_integer_roundtrip_witness :
    (∃ bytes, storeX8 ⟨-1⟩ = Except.ok bytes ∧
      loadX8 (bytes ++ [9]) = (Except.ok ⟨-1⟩, [9])) ∧
    (∃ bytes, storeX16 ⟨-32768⟩ = Except.ok bytes ∧
      loadX16 (bytes ++ []) = (Except.ok ⟨-32768⟩, [])) :=
  ⟨C4_scaled_integer_roundtrip.1 ⟨-1⟩ [9] (by norm_num) (by norm_num),
   C4_scaled_integer_roundtrip.2.1 ⟨-32768⟩ [] (by norm_num) (by norm_num)⟩

/-- C6: an Incoming packet with discriminant `0x05` reads three big-endian
`u16` position components, a mode byte and a block-id byte, in that order,
and yields `SetBlock` whose state is the block id when the mode byte is
nonzero and `0` when it is zero. -/
theorem C6_setblock_decode (a b c d e f m i : Nat) (rest : List Nat) :
    loadIncoming (0x05 :: a :: b :: c :: d :: e :: f :: m :: i :: rest) =
      (Except.ok (Incoming.SetBlock ⟨a * 256 + b, c * 256 + d, e * 256 + f⟩
        (if m ≠ 0 then i else 0)), rest) := rfl

/-- C10 witness: `2.5` seconds is accepted, `0` is rejected. -/
theorem C10_duration_float_guard_witness :
    visitF64 (F64.finite (5 / 2)) = Except.ok (5 / 2) ∧
    visitF64 (F64.finite 0) =
      Except.error "duration must be positive, non-zero, and finite" :=
  ⟨C10_duration_float_guard.1 (5 / 2) (by norm_num),
   C10_duration_float_guard.2.1 0 le_rfl⟩

/-- C5: every Outgoing variant encodes as its assigned discriminant byte
(`0x00` ServerIdentification through `0x0f` UpdateUser) followed by its
fields in the wire table's fixed order; each operator-flag field is
written as `0x64` when true and `0x00` when false. -/
theorem C5_outgoing_wire_table :
    (∀ (version : Nat) (name motd : List Nat) (operator : Bool)
        (nb mb : List Nat), encodeString name = some nb →
        encodeString motd = some mb →
      storeOutgoing (Outgoing.ServerIdentification version name motd operator) =
        Except.ok ([0x00, version] ++ pad64 nb ++ pad64 mb ++
          [if operator then 0x64 else 0x00])) ∧
    storeOutgoing Outgoing.Ping = Except.ok [0x01] ∧
    storeOutgoing Outgoing.LevelInit = Except.ok [0x02] ∧
    (∀ (len : Nat) (chunk : List Nat) (pct : Nat),
      storeOutgoing (Outgoing.LevelDataChunk len chunk pct) =
        Except.ok ([0x03] ++ be16 len ++ chunk ++ [pct])) ∧
    (∀ size : Vector3 Nat,
      storeOutgoing (Outgoing.LevelFinalize size) =
        Except.ok ([0x04] ++ be16 size.x ++ be16 size.y ++ be16 size.z)) ∧
    (∀ (pos : Vector3 Nat) (block : Nat),
      storeOutgoing (Outgoing.SetBlock pos block) =
        Except.ok ([0x06] ++ be16 pos.x ++ be16 pos.y ++ be16 pos.z ++
          [block])) ∧
    (∀ (id : Int) (name : List Nat) (loc : Location) (nb : List Nat),
        encodeString name = some nb →
      storeOutgoing (Outgoing.SpawnPlayer id name loc) =
        Except.ok ([0x07, i8Byte id] ++ pad64 nb ++ locationBytes loc)) ∧
    (∀ (id : Int) (loc : Location),
      storeOutgoing (Outgoing.TeleportPlayer id loc) =
        Except.ok ([0x08, i8Byte id] ++ locationBytes loc)) ∧
    (∀ (id : Int) (pc : Vector3 x8) (yaw pitch : Nat),
      storeOutgoing (Outgoing.UpdatePlayerLocation id pc yaw pitch) =
        Except.ok [0x09, i8Byte id, x8Byte pc.x, x8Byte pc.y, x8Byte pc.z,
          yaw, pitch]) ∧
    (∀ (id : Int) (pc : Vector3 x8),
      storeOutgoing (Outgoing.UpdatePlayerPosition id pc) =
        Except.ok [0x0a, i8Byte id, x8Byte pc.x, x8Byte pc.y, x8Byte pc.z]) ∧
    (∀ (id : Int) (yaw pitch : Nat),
      storeOutgoing (Outgoing.UpdatePlayerRotation id yaw pitch) =
        Except.ok [0x0b, i8Byte id, yaw, pitch]) ∧
    (∀ id : Int, storeOutgoing (Outgoing.DespawnPlayer id) =
      Except.ok [0x0c, i8Byte id]) ∧
    (∀ (id : Int) (msg mb : List Nat), encodeString msg = some mb →
      storeOutgoing (Outgoing.Message id msg) =
        Except.ok ([0x0d, i8Byte id] ++ pad64 mb)) ∧
    (∀ (reason rb : List Nat), encodeString reason = some rb →
      storeOutgoing (Outgoing.Disconnect reason) =
        Except.ok ([0x0e] ++ pad64 rb)) ∧
    (∀ operator : Bool, storeOutgoing (Outgoing.UpdateUser operator) =
      Except.ok [0x0f, if operator then 0x64 else 0x00]) := by
  refine ⟨?_, rfl, rfl, ?_, ?_, ?_, ?_, ?_, ?_, ?_, ?_, ?_, ?_, ?_, ?_⟩
  · intro version name motd operator nb mb hn hm
    obtain ⟨hsn, _⟩ := storeString_of_encode_some hn
    obtain ⟨hsm, _⟩ := storeString_of_encode_some hm
    simp [storeOutgoing, storeU8, hsn, hsm, Bind.bind, Except.bind, Pure.pure, Except.pure]
  · intro len chunk pct
    simp [storeOutgoing, storeU8, storeU16, storeBytes1024, be16,
      Bind.bind, Except.bind, Pure.pure, Except.pure]
  · intro size
    simp [storeOutgoing, storeU8, storeU16, storeVector3, be16,
      Bind.bind, Except.bind, Pure.pure, Except.pure]
  · intro pos block
    simp [storeOutgoing, storeU8, storeU16, storeVector3, be16,
      Bind.bind, Except.bind, Pure.pure, Except.pure]
  · intro id name loc nb hn
    obtain ⟨hsn, _⟩ := storeString_of_encode_some hn
    simp [storeOutgoing, storeU8, storeI8, hsn, storeLocation, storeVector3,
      storeX16, i8Byte, locationBytes, x16Bytes, Bind.bind, Except.bind, Pure.pure, Except.pure]
  · intro id loc
    simp [storeOutgoing, storeU8, storeI8, storeLocation, storeVector3,
      storeX16, i8Byte, locationBytes, x16Bytes, Bind.bind, Except.bind, Pure.pure, Except.pure]
  · intro id pc yaw pitch
    simp [storeOutgoing, storeU8, storeI8, storeVector3, storeX8,
      x8.to_bits, i8Byte, x8Byte, Bind.bind, Except.bind, Pure.pure, Except.pure]
  · intro id pc
    simp [storeOutgoing, storeU8, storeI8, storeVector3, storeX8,
      x8.to_bits, i8Byte, x8Byte, Bind.bind, Except.bind, Pure.pure, Except.pure]
  · intro id yaw pitch
    simp [storeOutgoing, storeU8, storeI8, i8Byte, Bind.bind, Except.bind, Pure.pure, Except.pure]
  · intro id
    simp [storeOutgoing, storeU8, storeI8, i8Byte, Bind.bind, Except.bind, Pure.pure, Except.pure]
  · intro id msg mb hm
    obtain ⟨hsm, _⟩ := storeString_of_encode_some hm
    simp [storeOutgoing, storeU8, storeI8, hsm, i8Byte, Bind.bind,
      Except.bind, Pure.pure, Except.pure]
  · intro reason rb hr
    obtain ⟨hsr, _⟩ := storeString_of_encode_some hr
    simp [storeOutgoing, storeU8, hsr, Bind.bind, Except.bind, Pure.pure, Except.pure]
  · intro operator
    cases operator <;>
      simp [storeOutgoing, storeU8, Bind.bind, Except.bind, Pure.pure, Except.pure]

theorem readsExactly_pure {α : Type} (a : α) :
    ReadsExactly 0 (pure a : ReadM α) := by
  intro s
  exact ⟨fun _ => ⟨a, by simp⟩, fun h => absurd h (Nat.not_lt_zero _)⟩

theorem readsExactly_readByte : ReadsExactly 1 readByte := by
  intro s
  cases s with
  | nil =>
    refine ⟨fun h => ?_, fun _ => rfl⟩
    simp at h
  | cons b rest =>
    refine ⟨fun _ => ⟨b, rfl⟩, fun h => ?_⟩
    simp at h

theorem readsExactly_readExact (n : Nat) : ReadsExactly n (readExact n) := by
  induction n with
  | zero => exact readsExactly_pure []
  | succ n ih =>
    intro s
    cases s with
    | nil =>
      refine ⟨fun h => ?_, fun _ => rfl⟩
      simp at h
    | cons b rest =>
      constructor
      · intro h
        have hrest : n ≤ rest.length := by
          simp only [List.length_cons] at h; omega
        obtain ⟨bs, hbs⟩ := (ih rest).1 hrest
        exact ⟨b :: bs, by simp [readExact, hbs]⟩
      · intro h
        have hrest : rest.length < n := by
          simp only [List.length_cons] at h; omega
        have h2 := (ih rest).2 hrest
        simp only [readExact]
        rcases hx : readExact n rest with ⟨fst, snd⟩
        rw [hx] at h2
        cases fst with
        | ok a => exact absurd h2 (by simp)
        | error e =>
          simp only at h2
          rw [h2]

theorem readsExactly_bind {α β : Type} {m : ReadM α} {f : α → ReadM β}
    {nm nf : Nat} (hm : ReadsExactly nm m)
    (hf : ∀ a, ReadsExactly nf (f a)) :
    ReadsExactly (nm + nf) (m >>= f) := by
  intro s
  constructor
  · intro h
    have h1 : nm ≤ s.length := by omega
    obtain ⟨a, ha⟩ := (hm s).1 h1
    have h2 : nf ≤ (s.drop nm).length := by
      simp only [List.length_drop]; omega
    obtain ⟨b, hb⟩ := (hf a (s.drop nm)).1 h2
    refine ⟨b, ?_⟩
    simp only [ReadM.bind_apply, ha, hb, List.drop_drop]
  · intro h
    rcases hx : m s with ⟨fst, snd⟩
    cases fst with
    | error e =>
      rcases lt_or_ge s.length nm with hlt | hge
      · have h2 := (hm s).2 hlt
        rw [hx] at h2
        simp only at h2
        simp only [ReadM.bind_apply, hx, h2]
      · obtain ⟨a, ha⟩ := (hm s).1 hge
        rw [hx] at ha
        exact absurd ha (by simp)
    | ok a =>
      rcases lt_or_ge s.length nm with hlt | hge
      · have h2 := (hm s).2 hlt
        rw [hx] at h2
        exact absurd h2 (by simp)
      · obtain ⟨a', ha'⟩ := (hm s).1 hge
        rw [hx] at ha'
        rw [Prod.mk.injEq] at ha'
        obtain ⟨ha1, ha2⟩ := ha'
        simp only [ReadM.bind_apply, hx]
        subst ha2
        exact (hf a _).2 (by simp only [List.length_drop]; omega)

theorem readsExactly_loadU8 : ReadsExactly 1 loadU8 :=
  readsExactly_readByte

theorem readsExactly_loadString : ReadsExactly 64 loadString :=
  readsExactly_bind (readsExactly_readExact 64)
    (fun bs => readsExactly_pure (trimEnd (bs.map decodeByte)))

theorem readsExactly_loadU16 : ReadsExactly 2 loadU16 :=
  readsExactly_bind readsExactly_readByte
    (fun hi => readsExactly_bind readsExactly_readByte
      (fun lo => readsExactly_pure (hi * 256 + lo)))

theorem readsExactly_loadX16 : ReadsExactly 2 loadX16 :=
  readsExactly_bind readsExactly_readByte
    (fun hi => readsExactly_bind readsExactly_readByte
      (fun lo => readsExactly_pure (x16.from_be_bytes hi lo)))

theorem readsExactly_loadVector3 {α : Type} {n : Nat} {loadT : ReadM α}
    (h : ReadsExactly n loadT) :
    ReadsExactly (n + (n + (n + 0))) (loadVector3 loadT) :=
  readsExactly_bind h (fun x => readsExactly_bind h
    (fun y => readsExactly_bind h (fun z => readsExactly_pure (Vector3.mk x y z))))

theorem readsExactly_loadLocation : ReadsExactly 8 loadLocation :=
  readsExactly_bind (readsExactly_loadVector3 readsExactly_loadX16)
    (fun position => readsExactly_bind readsExactly_readByte
      (fun yaw => readsExactly_bind readsExactly_readByte
        (fun pitch => readsExactly_pure (Location.mk position yaw pitch))))

theorem readsExactly_loadPlayerIdentification :
    ReadsExactly 130 loadPlayerIdentification :=
  readsExactly_bind readsExactly_loadU8
    (fun version => readsExactly_bind readsExactly_loadString
      (fun username => readsExactly_bind readsExactly_loadString
        (fun key => readsExactly_bind readsExactly_loadU8
          (fun _ => readsExactly_pure
            (Incoming.PlayerIdentification version username key)))))

theorem readsExactly_loadSetBlockArm : ReadsExactly 8 loadSetBlockArm :=
  readsExactly_bind (readsExactly_loadVector3 readsExactly_loadU16)
    (fun position => readsExactly_bind readsExactly_loadU8
      (fun modeByte => readsExactly_bind readsExactly_loadU8
        (fun id => readsExactly_pure
          (Incoming.SetBlock position (if modeByte ≠ 0 then id else 0)))))

theorem readsExactly_loadSetLocationArm :
    ReadsExactly 9 loadSetLocationArm :=
  readsExactly_bind readsExactly_loadU8
    (fun _ => readsExactly_bind readsExactly_loadLocation
      (fun location => readsExactly_pure (Incoming.SetLocation location)))

theorem readsExactly_loadMessageArm : ReadsExactly 65 loadMessageArm :=
  readsExactly_bind readsExactly_loadU8
    (fun _ => readsExactly_bind readsExactly_loadString
      (fun message => readsExactly_pure (Incoming.Message message)))

/-- C1: an Incoming packet whose discriminant byte is not `0x00`, `0x05`,
`0x08` or `0x0d` fails to decode with `InvalidData`, consuming nothing
beyond the discriminant byte; and for each known discriminant, a stream
shorter than the variant's fixed field length (130, 8, 9 and 65 bytes
respectively) fails with the short-read (`UnexpectedEof`) error. -/
theorem C1_incoming_decode_errors :
    (∀ (d : Nat) (rest : List Nat), d ≠ 0x00 → d ≠ 0x05 → d ≠ 0x08 →
      d ≠ 0x0d →
      loadIncoming (d :: rest) = (Except.error Err.invalidData, rest)) ∧
    (∀ rest : List Nat, rest.length < 130 →
      (loadIncoming (0x00 :: rest)).1 = Except.error Err.unexpectedEof) ∧
    (∀ rest : List Nat, rest.length < 8 →
      (loadIncoming (0x05 :: rest)).1 = Except.error Err.unexpectedEof) ∧
    (∀ rest : List Nat, rest.length < 9 →
      (loadIncoming (0x08 :: rest)).1 = Except.error Err.unexpectedEof) ∧
    (∀ rest : List Nat, rest.length < 65 →
      (loadIncoming (0x0d :: rest)).1 = Except.error Err.unexpectedEof) := by
  refine ⟨?_, ?_, ?_, ?_, ?_⟩
  · intro d rest h0 h5 h8 h13
    simp [loadIncoming, loadU8, readByte, h0, h5, h8, h13]
  · intro rest h
    have heq : loadIncoming (0x00 :: rest) = loadPlayerIdentification rest :=
      rfl
    rw [heq]
    exact (readsExactly_loadPlayerIdentification rest).2 h
  · intro rest h
    have heq : loadIncoming (0x05 :: rest) = loadSetBlockArm rest := rfl
    rw [heq]
    exact (readsExactly_loadSetBlockArm rest).2 h
  · intro rest h
    have heq : loadIncoming (0x08 :: rest) = loadSetLocationArm rest := rfl
    rw [heq]
    exact (readsExactly_loadSetLocationArm rest).2 h
  · intro rest h
    have heq : loadIncoming (0x0d :: rest) = loadMessageArm rest := rfl
    rw [heq]
    exact (readsExactly_loadMessageArm rest).2 h

/-- C1 witness: discriminant `0xFF` fails with `InvalidData` leaving the
rest of the stream untouched, and a truncated `0x05` packet fails with
the short-read error. -/
theorem C1_incoming_decode_errors_witness :
    loadIncoming (0xFF :: [1, 2]) = (Except.error Err.invalidData, [1, 2]) ∧
    (loadIncoming (0x05 :: [1, 2, 3])).1 = Except.error Err.unexpectedEof :=
  ⟨C1_incoming_decode_errors.1 0xFF [1, 2] (by decide) (by decide)
      (by decide) (by decide),
   C1_incoming_decode_errors.2.2.1 [1, 2, 3] (by decide)⟩

set_option maxRecDepth 4000 in
/-- C5 witness: the ServerIdentification conjunct applied to version 7,
name `"A"`, motd `"B"`, operator true. -/
theorem C5_outgoing_wire_table_witness :
    storeOutgoing (Outgoing.ServerIdentification 7 [0x41] [0x42] true) =
      Except.ok ([0x00, 7] ++ pad64 [0x41] ++ pad64 [0x42] ++
        [if true then 0x64 else 0x00]) :=
  C5_outgoing_wire_table.1 7 [0x41] [0x42] true [0x41] [0x42] rfl rfl

end Oxine
